import Mathlib

/-!
# Shallow embedding of the go-taglib C wrapper (src/taglib.cpp, src/embed/taglib_wasm.cpp)

The wrapper marshals a property store (key → ordered list of string values)
across a C boundary as a sentinel-terminated array of `"KEY\tVALUE"` rows,
with vertical-tab as the secondary (multi-value) separator, and flattens
ID3v2 frames / ID3v1 fields into the same row shape.

Strings are modelled as `List Char`.  The wrapped TagLib library is modelled
at its call interface (PropertyMap erase/replace/clear, ID3v2 removeFrames /
addFrame, the ID3v1 accessors); file handles are modelled as an inductive
input that distinguishes "could not be opened" from the various valid shapes.
Null-pointer arguments and `malloc` failure are below the level of this
embedding (Lean lists are never null and allocation always succeeds).
-/

abbrev Str := List Char

/-- The primary key/value separator of a wire row (`"\t"` in the source). -/
def TAB : Char := '\t'

/-- The secondary multi-value separator (`"\v"` in the source, code point 11). -/
def VT : Char := Char.ofNat 11

/-- The compound-key delimiter for qualified frame keys (`":"` in the source). -/
def COLON : Char := ':'

/-- `TagLib::String::find` of a one-character pattern followed by the two
`substr` calls: split a string at the first occurrence of `c`; `none` when
`find` returns `-1`. -/
def splitFirst (c : Char) : Str → Option (Str × Str)
  | [] => none
  | x :: xs =>
      if x = c then some ([], xs)
      else (splitFirst c xs).map (fun p => (x :: p.1, p.2))

/-- `TagLib::String::split` on a one-character separator (also the manual
find/substr loop of `taglib_file_write_id3v2_frames`, lines 335-345): the
result is never empty and joining it with `c` restores the input. -/
def splitChar (c : Char) : Str → List Str
  | [] => [[]]
  | x :: xs =>
      if x = c then [] :: splitChar c xs
      else
        match splitChar c xs with
        | [] => [[x]]
        | y :: ys => (x :: y) :: ys

/-- A `"KEY\tVALUE"` wire row (`key + "\t" + value` in the source). -/
def mkRow (k v : Str) : Str := k ++ TAB :: v

/-- `TagLib::PropertyMap` at the wrapper's interface: an association list
from key to the ordered list of values; keys are unique in any map produced
by TagLib. -/
abbrev Store := List (Str × List Str)

def storeKeys (s : Store) : List Str := s.map Prod.fst

/-- `std::map::find` (first entry with the key). -/
def lookupStore (s : Store) (k : Str) : Option (List Str) :=
  (s.find? (fun kv => kv.1 == k)).map Prod.snd

/-- `PropertyMap::erase`: drop the entry with this key (no-op when absent). -/
def eraseStore (s : Store) (k : Str) : Store :=
  s.filter (fun kv => kv.1 != k)

/-- `PropertyMap::replace`: erase then insert; the entry's position is
immaterial (the store is a map), the model appends it. -/
def replaceStore (s : Store) (k : Str) (vs : List Str) : Store :=
  eraseStore s k ++ [(k, vs)]

/-- `std::map` equality (`file.properties() == properties`): two stores are
equal as mappings — same lookup result on every key of either. -/
def storeEqv (s t : Store) : Bool :=
  (storeKeys s ++ storeKeys t).all (fun k => decide (lookupStore s k = lookupStore t k))

/-- The row emission of `taglib_file_tags` (lines 44-51): one
`"KEY\tVALUE"` row per individual value, in iteration order of the map. -/
def encodeStore : Store → List Str
  | [] => []
  | kv :: rest => kv.2.map (fun v => mkRow kv.1 v) ++ encodeStore rest

/-- A `TagLib::FileRef` argument: either `isNull()` (open failed) or a valid
file carrying its persisted property store and whether `save()` succeeds. -/
inductive FileInput where
  | openFail
  | valid (store : Store) (saveOk : Bool)
deriving DecidableEq

/-- Option bit `CLEAR = 1 << 0`. -/
def CLEAR : Nat := 1

/-- Option bit `DIFF_SAVE = 1 << 1`. -/
def DIFF_SAVE : Nat := 2

/-- One iteration of the row loop of `taglib_file_write_tags` (lines 72-82):
split the row at its first TAB (skip the row when there is none); an empty
value erases the key, a non-empty value replaces the key's values with the
vertical-tab split of the value. -/
def applyRow (s : Store) (row : Str) : Store :=
  match splitFirst TAB row with
  | none => s
  | some (key, value) =>
      if value = [] then eraseStore s key
      else replaceStore s key (splitChar VT value)

def applyRows (s : Store) (rows : List Str) : Store := rows.foldl applyRow s

/-- The store built by `taglib_file_write_tags` before persisting: the file's
store (emptied first when `CLEAR` is set, lines 69-70) with every row
directive applied. -/
def appliedStore (store : Store) (rows : List Str) (opts : Nat) : Store :=
  applyRows (if opts &&& CLEAR ≠ 0 then [] else store) rows

/-- `taglib_file_tags` (lines 28-54): `nullptr` when the file could not be
opened, otherwise the sentinel-terminated row array (modelled as the list of
rows; the sentinel is the end of the list). -/
def taglib_file_tags : FileInput → Option (List Str)
  | .openFail => none
  | .valid store _ => some (encodeStore store)

/-- `taglib_file_write_tags` (lines 59-91).  The second component records the
store passed to `setProperties`/`save`; `none` means the persistence step was
not invoked (the `DIFF_SAVE` early return, or failure before it). -/
def taglib_file_write_tags (f : FileInput) (rows : List Str) (opts : Nat) :
    Bool × Option Store :=
  match f with
  | .openFail => (false, none)
  | .valid store saveOk =>
      let props := appliedStore store rows opts
      if opts &&& DIFF_SAVE ≠ 0 ∧ storeEqv store props = true then (true, none)
      else (saveOk, some props)

/-- One ID3v2 frame instance, as a closed variant over the frame kinds the
wrapper distinguishes by `dynamic_cast`.  `userText` models
`UserTextIdentificationFrame` carrying its RAW internal field list: in
TagLib, `UserTextIdentificationFrame::fieldList()` returns the parent's full
field list, whose FIRST element (when present) is the description —
`description()` is `fieldList().front()` — and the later elements are the
value fields.  `comm` models `CommentsFrame`, `popm` models
`PopularimeterFrame`, `textId` models a `TextIdentificationFrame` that is not
a user-text frame, `other` models any other frame with its `toString()`
rendering. -/
inductive Frame where
  | userText (fields : List Str)
  | comm (desc : Str) (body : Str)
  | popm (email : Str) (rating : Nat)
  | textId (ident : Str) (values : List Str)
  | other (ident : Str) (rendered : Str)
deriving DecidableEq

def TXXXid : Str := ['T', 'X', 'X', 'X']
def COMMid : Str := ['C', 'O', 'M', 'M']
def POPMid : Str := ['P', 'O', 'P', 'M']

/-- The frame ID under which an instance sits in the `frameListMap`. -/
def Frame.frameID : Frame → Str
  | .userText _ => TXXXid
  | .comm _ _ => COMMid
  | .popm _ _ => POPMid
  | .textId ident _ => ident
  | .other ident _ => ident

/-- `TagLib::String::number` (decimal rendering of a number). -/
def natToStr (n : Nat) : Str := Nat.toDigits 10 n

/-- `StringList::toString()` with the default separator `" "`. -/
def joinSep (c : Char) : List Str → Str
  | [] => []
  | [v] => v
  | v :: vs => v ++ c :: joinSep c vs

/-- The per-frame `(key, value)` computation of `taglib_file_id3v2_frames`
(lines 160-196): dispatch on the frame ID, then `dynamic_cast` (a failed cast
leaves `key = frameID` and `value` empty).  For TXXX the key appends
`description()` — the FIRST element of the raw field list, empty when the
list is empty — and the value is `fieldList().back()`, the LAST element of
that same list (empty when the list is empty); a frame whose only field is
its description therefore emits the description as the value.  The final
else-branch only ever sees `textId`/`other` frames, since the special
constructors carry the IDs the earlier branches intercept. -/
def flattenFrame (f : Frame) : Str × Str :=
  if f.frameID = TXXXid then
    match f with
    | .userText fields =>
        (TXXXid ++ COLON :: fields.headD [],
         if fields.isEmpty then [] else fields.getLastD [])
    | _ => (f.frameID, [])
  else if f.frameID = COMMid then
    match f with
    | .comm desc body => (COMMid ++ COLON :: desc, body)
    | _ => (f.frameID, [])
  else if f.frameID = POPMid then
    match f with
    | .popm email rating => (POPMid ++ COLON :: email, natToStr rating)
    | _ => (f.frameID, [])
  else
    match f with
    | .textId _ values => (f.frameID, joinSep ' ' values)
    | .other _ rendered => (f.frameID, rendered)
    | _ => (f.frameID, [])

/-- `row = key + "\t" + value` (line 196). -/
def frameRow (f : Frame) : Str := mkRow (flattenFrame f).1 (flattenFrame f).2

/-- The input shapes `taglib_file_id3v2_frames` distinguishes: open failure,
an openable non-MPEG file, an MPEG file without an ID3v2 tag, and an MPEG
file whose ID3v2 tag holds the given frames (in `frameListMap` iteration
order). -/
inductive Id3v2Input where
  | openFail
  | nonMpeg
  | mpegNoTag
  | mpegTag (frames : List Frame)
deriving DecidableEq

/-- `taglib_file_id3v2_frames` (lines 112-203): `nullptr` only on open
failure; a sentinel-only empty array for a non-MPEG file, a missing ID3v2
tag, or a zero-frame tag; otherwise one row per frame. -/
def taglib_file_id3v2_frames : Id3v2Input → Option (List Str)
  | .openFail => none
  | .nonMpeg => some []
  | .mpegNoTag => some []
  | .mpegTag fs => if fs.isEmpty then some [] else some (fs.map frameRow)

/-- `TagLib::String::startsWith("T")`. -/
def startsWithT : Str → Bool
  | [] => false
  | c :: _ => c = 'T'

/-- The keep-set key normalisation of the `CLEAR` path (lines 290-295):
`key.substr(0, key.find(":"))` when the key contains a colon. -/
def stripQual (k : Str) : Str :=
  match splitFirst COLON k with
  | none => k
  | some (base, _) => base

/-- The keep-set collection of the `CLEAR` path (lines 284-297): the
`:`-stripped key of every row that contains a TAB. -/
def keepIDs (rows : List Str) : List Str :=
  rows.filterMap (fun r => (splitFirst TAB r).map (fun p => stripQual p.1))

/-- The frame removal of the `CLEAR` path (lines 299-313): every frame whose
ID is not in the keep-set is removed (`removeFrames` on each unkept map
entry), every frame whose ID is in the keep-set survives. -/
def clearStep (keep : List Str) (fs : List Frame) : List Frame :=
  fs.filter (fun f => decide (f.frameID ∈ keep))

/-- `ID3v2::Tag::removeFrames(id)`: drop every frame whose ID equals `id`. -/
def removeFrames (fs : List Frame) (ident : Str) : List Frame :=
  fs.filter (fun f => f.frameID != ident)

/-- One iteration of the row loop of `taglib_file_write_id3v2_frames`
(lines 317-359): split at the first TAB (skip the row when there is none),
call `removeFrames` with the FULL key (the key is NOT split at `:` here),
then, for a non-empty value, add a `TextIdentificationFrame` (key starts with
`T`, value split at vertical tab) or a `CommentsFrame` (key is exactly
`COMM`); other keys add nothing.  The added text frame's ID is NOT the full
key: TagLib's `Frame::Header` takes the frame ID from the first 4 BYTES of
the `TextIdentificationFrame` type argument, modelled as the first 4
characters (the two coincide for the ASCII identifiers ID3v2 frame keys are
made of), so a compound key such as `TXXX:d` adds a frame under `TXXX`. -/
def applyFrameRow (fs : List Frame) (row : Str) : List Frame :=
  match splitFirst TAB row with
  | none => fs
  | some (key, value) =>
      let fs1 := removeFrames fs key
      if value = [] then fs1
      else if startsWithT key then fs1 ++ [Frame.textId (key.take 4) (splitChar VT value)]
      else if key = COMMid then fs1 ++ [Frame.comm [] value]
      else fs1

/-- A `TagLib::MPEG::File` argument of the frame-write call: invalid, or a
valid file whose ID3v2 tag holds the given frames (an absent tag is created
empty, line 274-276) together with whether `save()` succeeds. -/
inductive MpegInput where
  | invalid
  | valid (frames : List Frame) (saveOk : Bool)
deriving DecidableEq

/-- `taglib_file_write_id3v2_frames` (lines 263-363).  The second component
is the frame list the tag holds when `save()` runs (`none` when the file was
invalid and nothing was attempted). -/
def taglib_file_write_id3v2_frames (f : MpegInput) (rows : List Str) (opts : Nat) :
    Bool × Option (List Frame) :=
  match f with
  | .invalid => (false, none)
  | .valid fs saveOk =>
      let fs1 := if opts &&& CLEAR ≠ 0 then clearStep (keepIDs rows) fs else fs
      (saveOk, some (rows.foldl applyFrameRow fs1))

/-- The ID3v1 accessors the wrapper reads (lines 234-256). -/
structure ID3v1Tag where
  title : Str
  artist : Str
  album : Str
  year : Nat
  comment : Str
  track : Nat
  genreNumber : Nat
  genre : Str
deriving DecidableEq

def TITLEkey : Str := ['T', 'I', 'T', 'L', 'E']
def ARTISTkey : Str := ['A', 'R', 'T', 'I', 'S', 'T']
def ALBUMkey : Str := ['A', 'L', 'B', 'U', 'M']
def YEARkey : Str := ['Y', 'E', 'A', 'R']
def COMMENTkey : Str := ['C', 'O', 'M', 'M', 'E', 'N', 'T']
def TRACKkey : Str := ['T', 'R', 'A', 'C', 'K']
def GENREkey : Str := ['G', 'E', 'N', 'R', 'E']

/-- The row emission of `taglib_file_id3v1_tags` (lines 231-259): the seven
fields in fixed order, each appended only under its guard (non-empty string,
positive number, and for GENRE a genre number other than 255 AND a non-empty
genre string). -/
def id3v1Rows (t : ID3v1Tag) : List Str :=
  (if t.title.isEmpty then [] else [mkRow TITLEkey t.title]) ++
  (if t.artist.isEmpty then [] else [mkRow ARTISTkey t.artist]) ++
  (if t.album.isEmpty then [] else [mkRow ALBUMkey t.album]) ++
  (if t.year > 0 then [mkRow YEARkey (natToStr t.year)] else []) ++
  (if t.comment.isEmpty then [] else [mkRow COMMENTkey t.comment]) ++
  (if t.track > 0 then [mkRow TRACKkey (natToStr t.track)] else []) ++
  (if t.genreNumber ≠ 255 then
    (if t.genre.isEmpty then [] else [mkRow GENREkey t.genre])
  else [])

/-- The input shapes `taglib_file_id3v1_tags` distinguishes. -/
inductive Id3v1Input where
  | openFail
  | nonMpeg
  | mpegNoV1
  | mpegV1 (tag : ID3v1Tag)
deriving DecidableEq

/-- `taglib_file_id3v1_tags` (lines 205-261): `nullptr` only on open failure;
a sentinel-only empty array for a non-MPEG file or a missing ID3v1 tag;
otherwise the guarded seven-field rows. -/
def taglib_file_id3v1_tags : Id3v1Input → Option (List Str)
  | .openFail => none
  | .nonMpeg => some []
  | .mpegNoV1 => some []
  | .mpegV1 t => some (id3v1Rows t)

/-- The first component (if any) of a wire row: its key up to the first TAB. -/
def rowKey (r : Str) : Option Str := (splitFirst TAB r).map Prod.fst

/-- Whether some row of the sequence carries the given key. -/
def hasKey (rows : List Str) (k : Str) : Bool :=
  rows.any (fun r => decide (rowKey r = some k))

/-- One embedded picture record of the picture category. -/
structure ImageRecord where
  data : List Nat
  pictureType : Str
  imgDesc : Str
  mimeType : Str
deriving DecidableEq

/-- Modelled from the spec: the `writeImage` operation of the Binary Payload
Channel is not part of the sources under `src/`; per §4.3/§6, a zero `length`
is a deletion directive for the entire picture category (all records removed
regardless of `index`), a non-zero `length` replaces the record at `index`
when in range and appends otherwise. -/
def writeImage (imgs : List ImageRecord) (buf : List Nat) (len : Nat)
    (index : Nat) (pt desc mime : Str) : List ImageRecord :=
  if len = 0 then []
  else if index < imgs.length then imgs.set index ⟨buf.take len, pt, desc, mime⟩
  else imgs ++ [⟨buf.take len, pt, desc, mime⟩]

/-- Modelled from the spec: the `readImage` operation of the Binary Payload
Channel (§4.3/§6): return the payload of the record at `index`, absence when
the index is out of bounds or the category is empty. -/
def readImage (imgs : List ImageRecord) (index : Nat) : Option (List Nat) :=
  (imgs[index]?).map ImageRecord.data

/-! ## Basic lemmas about the row codec -/

theorem splitFirst_of_not_mem {c : Char} : ∀ {r : Str}, c ∉ r → splitFirst c r = none
  | [], _ => rfl
  | x :: xs, h => by
      have hx : x ≠ c := fun e => h (e ▸ List.mem_cons_self x xs)
      simp [splitFirst, hx, splitFirst_of_not_mem (fun hm => h (List.mem_cons_of_mem _ hm))]

theorem splitFirst_append {c : Char} : ∀ {k : Str} (v : Str), c ∉ k →
    splitFirst c (k ++ c :: v) = some (k, v)
  | [], v, _ => by simp [splitFirst]
  | x :: xs, v, h => by
      have hx : x ≠ c := fun e => h (e ▸ List.mem_cons_self x xs)
      simp [splitFirst, hx,
        splitFirst_append (k := xs) v (fun hm => h (List.mem_cons_of_mem _ hm))]

theorem splitFirst_mkRow {k : Str} (v : Str) (h : TAB ∉ k) :
    splitFirst TAB (mkRow k v) = some (k, v) :=
  splitFirst_append v h

theorem splitChar_of_not_mem {c : Char} : ∀ {v : Str}, c ∉ v → splitChar c v = [v]
  | [], _ => rfl
  | x :: xs, h => by
      have hx : x ≠ c := fun e => h (e ▸ List.mem_cons_self x xs)
      have ih := splitChar_of_not_mem (c := c) (v := xs)
        (fun hm => h (List.mem_cons_of_mem _ hm))
      simp [splitChar, hx, ih]

theorem mkRow_inj {k₁ k₂ v₁ v₂ : Str} (h₁ : TAB ∉ k₁) (h₂ : TAB ∉ k₂)
    (h : mkRow k₁ v₁ = mkRow k₂ v₂) : k₁ = k₂ ∧ v₁ = v₂ := by
  have e := (splitFirst_mkRow v₁ h₁).symm.trans (h ▸ splitFirst_mkRow v₂ h₂)
  exact ⟨congrArg Prod.fst (Option.some.inj e), congrArg Prod.snd (Option.some.inj e)⟩

/-! ## Basic lemmas about the store model -/

theorem eraseStore_of_lookup_none {s : Store} {k : Str} (h : lookupStore s k = none) :
    eraseStore s k = s := by
  induction s with
  | nil => rfl
  | cons kv rest ih =>
      simp only [lookupStore, List.find?_cons] at h
      by_cases hk : kv.1 == k
      · simp [hk] at h
      · simp only [eraseStore, List.filter_cons, bne, hk, Bool.not_false, if_pos]
        have : lookupStore rest k = none := by
          simpa [lookupStore, List.find?_cons, hk] using h
        simpa [eraseStore] using ih this

theorem lookupStore_eraseStore_self (s : Store) (k : Str) :
    lookupStore (eraseStore s k) k = none := by
  induction s with
  | nil => rfl
  | cons kv rest ih =>
      by_cases hk : kv.1 == k
      · rw [show eraseStore (kv :: rest) k = eraseStore rest k by
          simp [eraseStore, List.filter_cons, bne, hk]]
        exact ih
      · simp only [eraseStore, List.filter_cons, bne, hk, Bool.not_false, if_pos,
          lookupStore, List.find?_cons, hk]
        exact ih

theorem lookupStore_eraseStore_other (s : Store) {k k₂ : Str} (h : k₂ ≠ k) :
    lookupStore (eraseStore s k) k₂ = lookupStore s k₂ := by
  induction s with
  | nil => rfl
  | cons kv rest ih =>
      by_cases hk : kv.1 == k
      · have hkv : kv.1 = k := by simpa using hk
        have hne : (kv.1 == k₂) = false := by
          simp [hkv]
          exact fun e => h e.symm
        simpa [eraseStore, List.filter_cons, bne, hk, lookupStore, List.find?_cons, hne]
          using ih
      · by_cases hk2 : kv.1 == k₂
        · simp [eraseStore, List.filter_cons, bne, hk, lookupStore, List.find?_cons, hk2]
        · simpa [eraseStore, List.filter_cons, bne, hk, lookupStore, List.find?_cons, hk2]
            using ih

theorem lookupStore_replaceStore_self (s : Store) (k : Str) (vs : List Str) :
    lookupStore (replaceStore s k vs) k = some vs := by
  induction s with
  | nil => simp [replaceStore, eraseStore, lookupStore, List.find?]
  | cons kv rest ih =>
      by_cases hk : kv.1 == k
      · rw [show replaceStore (kv :: rest) k vs = replaceStore rest k vs by
          simp [replaceStore, eraseStore, List.filter_cons, bne, hk]]
        exact ih
      · simp only [replaceStore, eraseStore, List.filter_cons, bne, hk, Bool.not_false,
          if_pos, List.cons_append, lookupStore, List.find?_cons, hk]
        exact ih

theorem lookupStore_replaceStore_other (s : Store) {k k₂ : Str} (vs : List Str)
    (h : k₂ ≠ k) : lookupStore (replaceStore s k vs) k₂ = lookupStore s k₂ := by
  have hkk : (k == k₂) = false := by
    simp only [beq_eq_false_iff_ne, ne_eq]
    exact fun e => h e.symm
  induction s with
  | nil => simp [replaceStore, eraseStore, lookupStore, List.find?, hkk]
  | cons kv rest ih =>
      by_cases hk : kv.1 == k
      · have hkv : kv.1 = k := by simpa using hk
        have hne2 : (kv.1 == k₂) = false := by
          simp only [hkv, beq_eq_false_iff_ne, ne_eq]
          exact fun e => h e.symm
        simpa [replaceStore, eraseStore, List.filter_cons, bne, hk, lookupStore,
          List.find?_cons, hne2] using ih
      · by_cases hk2 : kv.1 == k₂
        · simp [replaceStore, eraseStore, List.filter_cons, bne, hk, lookupStore,
            List.find?_cons, hk2]
        · simpa [replaceStore, eraseStore, List.filter_cons, bne, hk, lookupStore,
            List.find?_cons, hk2] using ih

theorem storeEqv_refl (s : Store) : storeEqv s s = true := by
  simp [storeEqv, List.all_eq_true]

theorem applyRow_mkRow (s : Store) {k : Str} (v : Str) (hk : TAB ∉ k) :
    applyRow s (mkRow k v) =
      if v = [] then eraseStore s k else replaceStore s k (splitChar VT v) := by
  simp [applyRow, splitFirst_mkRow v hk]

theorem applyRow_of_no_tab {r : Str} (hr : TAB ∉ r) (s : Store) : applyRow s r = s := by
  simp [applyRow, splitFirst_of_not_mem hr]

theorem applyFrameRow_of_no_tab {r : Str} (hr : TAB ∉ r) (fs : List Frame) :
    applyFrameRow fs r = fs := by
  simp [applyFrameRow, splitFirst_of_not_mem hr]

theorem applyRows_middle (s : Store) {r : Str} (hr : TAB ∉ r) (l₁ l₂ : List Str) :
    applyRows s (l₁ ++ r :: l₂) = applyRows s (l₁ ++ l₂) := by
  simp [applyRows, List.foldl_append, List.foldl_cons, applyRow_of_no_tab hr]

theorem foldlFrames_middle (fs : List Frame) {r : Str} (hr : TAB ∉ r) (l₁ l₂ : List Str) :
    (l₁ ++ r :: l₂).foldl applyFrameRow fs = (l₁ ++ l₂).foldl applyFrameRow fs := by
  simp [List.foldl_append, List.foldl_cons, applyFrameRow_of_no_tab hr]

theorem keepIDs_middle {r : Str} (hr : TAB ∉ r) (l₁ l₂ : List Str) :
    keepIDs (l₁ ++ r :: l₂) = keepIDs (l₁ ++ l₂) := by
  simp [keepIDs, List.filterMap_append, List.filterMap_cons, splitFirst_of_not_mem hr]

theorem lookupStore_append_of_none {t₁ : Store} (t₂ : Store) {k : Str}
    (h : lookupStore t₁ k = none) : lookupStore (t₁ ++ t₂) k = lookupStore t₂ k := by
  induction t₁ with
  | nil => rfl
  | cons kv rest ih =>
      by_cases hk : kv.1 == k
      · simp [lookupStore, List.find?_cons, hk] at h
      · have h' : lookupStore rest k = none := by
          simpa [lookupStore, List.find?_cons, hk] using h
        simpa [lookupStore, List.find?_cons, hk] using ih h'

/-- Decoding the encoder's rows left to right on top of a store `t` disjoint
from the encoded store appends the encoded store, provided every key carries
exactly one non-empty vertical-tab-free value. -/
theorem applyRows_encodeStore (s : Store) : ∀ t : Store,
    (∀ kv ∈ s, TAB ∉ kv.1) →
    (∀ kv ∈ s, ∃ v, kv.2 = [v] ∧ v ≠ [] ∧ VT ∉ v) →
    (storeKeys s).Nodup →
    (∀ k ∈ storeKeys s, lookupStore t k = none) →
    applyRows t (encodeStore s) = t ++ s := by
  induction s with
  | nil => intro t _ _ _ _; simp [applyRows, encodeStore]
  | cons kv rest ih =>
      intro t hk hv hnd hlook
      obtain ⟨v, hvs, hvne, hvvt⟩ := hv kv (List.mem_cons_self _ _)
      have hktab : TAB ∉ kv.1 := hk kv (List.mem_cons_self _ _)
      have hkt : lookupStore t kv.1 = none := hlook kv.1 (by simp [storeKeys])
      have hnodck : kv.1 ∉ storeKeys rest ∧ (storeKeys rest).Nodup := by
        simpa [storeKeys, List.nodup_cons] using hnd
      have henc : encodeStore (kv :: rest) = mkRow kv.1 v :: encodeStore rest := by
        simp [encodeStore, hvs]
      have hstep : applyRow t (mkRow kv.1 v) = t ++ [(kv.1, [v])] := by
        rw [applyRow_mkRow t v hktab, if_neg hvne, splitChar_of_not_mem hvvt,
          replaceStore, eraseStore_of_lookup_none hkt]
      have hrows : applyRows t (encodeStore (kv :: rest)) =
          applyRows (t ++ [(kv.1, [v])]) (encodeStore rest) := by
        rw [henc]; simp [applyRows, List.foldl_cons, hstep]
      rw [hrows, ih (t ++ [(kv.1, [v])])
        (fun kv' h' => hk kv' (List.mem_cons_of_mem _ h'))
        (fun kv' h' => hv kv' (List.mem_cons_of_mem _ h'))
        hnodck.2
        (by
          intro k' hk'
          have h1 : lookupStore t k' = none := hlook k' (by
            rw [show storeKeys (kv :: rest) = kv.1 :: storeKeys rest from rfl]
            exact List.mem_cons_of_mem _ hk')
          have hne : (kv.1 == k') = false := by
            simp only [beq_eq_false_iff_ne, ne_eq]
            exact fun e => hnodck.1 (e ▸ hk')
          rw [lookupStore_append_of_none _ h1]
          simp [lookupStore, List.find?, hne])]
      have hkveq : (kv.1, [v]) = kv := by rw [← hvs]
      rw [List.append_assoc, List.singleton_append, hkveq]

theorem any_ite (c : Prop) [Decidable c] (l₁ l₂ : List Str) (p : Str → Bool) :
    (if c then l₁ else l₂).any p = if c then l₁.any p else l₂.any p := by
  split <;> rfl

theorem rowKey_mkRow {k : Str} (v : Str) (h : TAB ∉ k) : rowKey (mkRow k v) = some k := by
  simp [rowKey, splitFirst_mkRow v h]

theorem length_ite_le {α : Type} {c : Prop} [Decidable c] {l₁ l₂ : List α}
    (h₁ : l₁.length ≤ 1) (h₂ : l₂.length ≤ 1) : (if c then l₁ else l₂).length ≤ 1 := by
  split <;> assumption

theorem ite_sublist {α : Type} {c : Prop} [Decidable c] {l₁ l₂ m : List α}
    (h₁ : l₁.Sublist m) (h₂ : l₂.Sublist m) : (if c then l₁ else l₂).Sublist m := by
  split <;> assumption

theorem if_bool_false {c : Bool} {d : Bool} : (if c = true then false else d) = (!c && d) := by
  cases c <;> simp

theorem if_prop_and (c : Prop) [Decidable c] (d : Bool) :
    (if c then d else false) = (decide c && d) := by
  by_cases h : c <;> simp [h]

/-- Which keys the ID3v1 row emission carries, as a function of the tag's
fields: each of the seven fixed keys appears exactly under its guard. -/
theorem hasKey_id3v1Rows (t : ID3v1Tag) (k : Str) :
    hasKey (id3v1Rows t) k =
      ((!t.title.isEmpty && decide (TITLEkey = k)) ||
       (!t.artist.isEmpty && decide (ARTISTkey = k)) ||
       (!t.album.isEmpty && decide (ALBUMkey = k)) ||
       (decide (t.year > 0) && decide (YEARkey = k)) ||
       (!t.comment.isEmpty && decide (COMMENTkey = k)) ||
       (decide (t.track > 0) && decide (TRACKkey = k)) ||
       (decide (t.genreNumber ≠ 255) &&
         (!t.genre.isEmpty && decide (GENREkey = k)))) := by
  have r1 : ∀ v : Str, rowKey (mkRow TITLEkey v) = some TITLEkey :=
    fun v => rowKey_mkRow v (by decide)
  have r2 : ∀ v : Str, rowKey (mkRow ARTISTkey v) = some ARTISTkey :=
    fun v => rowKey_mkRow v (by decide)
  have r3 : ∀ v : Str, rowKey (mkRow ALBUMkey v) = some ALBUMkey :=
    fun v => rowKey_mkRow v (by decide)
  have r4 : ∀ v : Str, rowKey (mkRow YEARkey v) = some YEARkey :=
    fun v => rowKey_mkRow v (by decide)
  have r5 : ∀ v : Str, rowKey (mkRow COMMENTkey v) = some COMMENTkey :=
    fun v => rowKey_mkRow v (by decide)
  have r6 : ∀ v : Str, rowKey (mkRow TRACKkey v) = some TRACKkey :=
    fun v => rowKey_mkRow v (by decide)
  have r7 : ∀ v : Str, rowKey (mkRow GENREkey v) = some GENREkey :=
    fun v => rowKey_mkRow v (by decide)
  simp only [hasKey, id3v1Rows, List.any_append, any_ite, List.any_cons, List.any_nil,
    Bool.or_false, r1, r2, r3, r4, r5, r6, r7, Option.some.injEq]
  simp only [if_bool_false, if_prop_and]

/-! ## Claim theorems -/

/-- Claim C1, counterexample to the claim as stated: a well-formed store with
a single key `K` carrying the two values `a`, `b` (TAB-free key, non-empty
list of TAB-free and vertical-tab-free values) encodes to two rows, and
decoding those rows with `CLEAR` set yields a store holding only the LAST
value `b` — not a store equal to the original: each row's replace directive
overwrites the previous row for the same key. -/
theorem C1_counterexample :
    taglib_file_tags (.valid [([ 'K' ], [['a'], ['b']])] true) =
      some [mkRow ['K'] ['a'], mkRow ['K'] ['b']] ∧
    (taglib_file_write_tags (.valid [([ 'K' ], [['a'], ['b']])] true)
        [mkRow ['K'] ['a'], mkRow ['K'] ['b']] CLEAR).2 =
      some [([ 'K' ], [['b']])] ∧
    storeEqv [([ 'K' ], [['b']])] [([ 'K' ], [['a'], ['b']])] = false ∧
    TAB ∉ ['K'] ∧ TAB ∉ ['a'] ∧ VT ∉ ['a'] ∧ TAB ∉ ['b'] ∧ VT ∉ ['b'] ∧
    (storeKeys [([ 'K' ], [['a'], ['b']])]).Nodup := by decide

/-- Claim C1 (amended): for every PropertyStore with distinct TAB-free keys
in which every key carries EXACTLY ONE value that is non-empty, TAB-free and
vertical-tab-free, encoding it with `taglib_file_tags` and decoding that row
sequence with `taglib_file_write_tags` with the `CLEAR` option set yields a
store equal to the original (same key set and, for each key, the same values
in the same order), whatever store the target file held before. -/
theorem C1_clear_roundtrip (s fstore : Store) (saveOk : Bool)
    (hk : ∀ kv ∈ s, TAB ∉ kv.1)
    (hv : ∀ kv ∈ s, kv.2.length = 1 ∧ ∀ v ∈ kv.2, v ≠ [] ∧ TAB ∉ v ∧ VT ∉ v)
    (hnd : (storeKeys s).Nodup) :
    taglib_file_tags (.valid s saveOk) = some (encodeStore s) ∧
    (taglib_file_write_tags (.valid fstore saveOk) (encodeStore s) CLEAR).2 = some s := by
  refine ⟨rfl, ?_⟩
  have happ : appliedStore fstore (encodeStore s) CLEAR = s := by
    rw [show appliedStore fstore (encodeStore s) CLEAR = applyRows [] (encodeStore s) by
      simp [appliedStore, CLEAR]]
    rw [applyRows_encodeStore s []
      hk
      (fun kv h => by
        obtain ⟨hlen, hall⟩ := hv kv h
        obtain ⟨v, hv2⟩ := List.length_eq_one.mp hlen
        have hm := hall v (by rw [hv2]; exact List.mem_singleton_self v)
        exact ⟨v, hv2, hm.1, hm.2.2⟩)
      hnd
      (fun k _ => rfl)]
    simp
  have hfalse : CLEAR &&& DIFF_SAVE = 0 := by decide
  simp [taglib_file_write_tags, hfalse, happ]

/-- Witness for C1 (amended) at a concrete two-key store. -/
theorem C1_clear_roundtrip_witness :
    taglib_file_tags (.valid [([ 'T' ], [['a']]), ([ 'A' ], [['b']])] true) =
      some (encodeStore [([ 'T' ], [['a']]), ([ 'A' ], [['b']])]) ∧
    (taglib_file_write_tags (.valid [([ 'X' ], [['y']])] true)
        (encodeStore [([ 'T' ], [['a']]), ([ 'A' ], [['b']])]) CLEAR).2 =
      some [([ 'T' ], [['a']]), ([ 'A' ], [['b']])] :=
  C1_clear_roundtrip [([ 'T' ], [['a']]), ([ 'A' ], [['b']])] [([ 'X' ], [['y']])] true
    (by decide) (by decide) (by decide)

/-- Claim C2: a row is split at its FIRST TAB only (the value may itself
contain further TABs); an empty value is a deletion directive (`erase`,
a no-op on a store without the key), a non-empty value is a replace directive
whose vertical-tab split REPLACES the key's values, leaving other keys
untouched. -/
theorem C2_row_directives (s sAbsent : Store) (k v k₂ : Str) (hk : TAB ∉ k)
    (habs : lookupStore sAbsent k = none) (hne : k₂ ≠ k) :
    applyRow s (mkRow k v) =
      (if v = [] then eraseStore s k else replaceStore s k (splitChar VT v)) ∧
    applyRow s (mkRow k []) = eraseStore s k ∧
    applyRow sAbsent (mkRow k []) = sAbsent ∧
    lookupStore (replaceStore s k (splitChar VT v)) k = some (splitChar VT v) ∧
    lookupStore (replaceStore s k (splitChar VT v)) k₂ = lookupStore s k₂ := by
  refine ⟨applyRow_mkRow s v hk, ?_, ?_, lookupStore_replaceStore_self s k _,
    lookupStore_replaceStore_other s _ hne⟩
  · rw [applyRow_mkRow s [] hk, if_pos rfl]
  · rw [applyRow_mkRow sAbsent [] hk, if_pos rfl, eraseStore_of_lookup_none habs]

/-- Witness for C2 at a concrete store, with a value containing the
vertical-tab separator. -/
theorem C2_row_directives_witness :
    applyRow [([ 'A' ], [['x']])] (mkRow ['A'] ['y', VT, 'z']) =
      (if (['y', VT, 'z'] : Str) = [] then eraseStore [([ 'A' ], [['x']])] ['A']
       else replaceStore [([ 'A' ], [['x']])] ['A'] (splitChar VT ['y', VT, 'z'])) ∧
    applyRow [([ 'A' ], [['x']])] (mkRow ['A'] []) = eraseStore [([ 'A' ], [['x']])] ['A'] ∧
    applyRow [([ 'B' ], [['z']])] (mkRow ['A'] []) = [([ 'B' ], [['z']])] ∧
    lookupStore (replaceStore [([ 'A' ], [['x']])] ['A'] (splitChar VT ['y', VT, 'z'])) ['A'] =
      some (splitChar VT ['y', VT, 'z']) ∧
    lookupStore (replaceStore [([ 'A' ], [['x']])] ['A'] (splitChar VT ['y', VT, 'z'])) ['B'] =
      lookupStore [([ 'A' ], [['x']])] ['B'] :=
  C2_row_directives [([ 'A' ], [['x']])] [([ 'B' ], [['z']])] ['A'] ['y', VT, 'z'] ['B']
    (by decide) (by decide) (by decide)

/-- Claim C5: when `DIFF_SAVE` is set and the store obtained by applying all
directives is equal as a mapping to the store the file already holds, the
call reports success and the persistence step is not invoked (second
component `none`). -/
theorem C5_diff_save (store : Store) (saveOk : Bool) (rows : List Str) (opts : Nat)
    (hopt : opts &&& DIFF_SAVE ≠ 0)
    (heq : storeEqv store (appliedStore store rows opts) = true) :
    taglib_file_write_tags (.valid store saveOk) rows opts = (true, none) := by
  simp [taglib_file_write_tags, hopt, heq]

/-- Witness for C5: rewriting the single key with its current value under
`DIFF_SAVE` succeeds without persisting, even on a file whose `save()` would
fail. -/
theorem C5_diff_save_witness :
    taglib_file_write_tags (.valid [([ 'A' ], [['x']])] false)
      [mkRow ['A'] ['x']] DIFF_SAVE = (true, none) :=
  C5_diff_save [([ 'A' ], [['x']])] false [mkRow ['A'] ['x']] DIFF_SAVE
    (by decide) (by decide)

/-- Claim C3, counterexample to the claim as stated: writing the single row
`"TXXX:d\tw"` against a tag holding a user-text frame with another qualifier
(description `o`, value `v`) does NOT remove that TXXX instance:
`removeFrames` is called with the FULL compound key `TXXX:d`, which matches
no frame ID, so the other-qualifier instance survives the write (the key is
only split at `:` in the `CLEAR` keep-set computation).  The replacement
frame itself IS added under `TXXX` (the frame ID is the first 4 bytes of the
constructor's type argument), so the saved tag holds TWO `TXXX`-ID frames —
not "all TXXX removed, only the batch's instances re-added". -/
theorem C3_counterexample :
    Frame.frameID (.userText [['o'], ['v']]) = TXXXid ∧
    (taglib_file_write_id3v2_frames (.valid [.userText [['o'], ['v']]] true)
        [mkRow (TXXXid ++ COLON :: ['d']) ['w']] 0).2 =
      some [.userText [['o'], ['v']], .textId TXXXid [['w']]] ∧
    Frame.userText [['o'], ['v']] ∈
      ((taglib_file_write_id3v2_frames (.valid [.userText [['o'], ['v']]] true)
          [mkRow (TXXXid ++ COLON :: ['d']) ['w']] 0).2.getD []) ∧
    (((taglib_file_write_id3v2_frames (.valid [.userText [['o'], ['v']]] true)
        [mkRow (TXXXid ++ COLON :: ['d']) ['w']] 0).2.getD []).filter
      (fun f => Frame.frameID f == TXXXid)).length = 2 := by decide

/-- Claim C3 (amended): in the row loop of `taglib_file_write_id3v2_frames`
the compound key is NOT split at `:`; `removeFrames` is called with the full
key, so exactly the frame instances whose frame ID equals the full key are
removed before the replacement is added, and every frame whose ID differs
from the full key (in particular every TXXX instance, when the key is a
qualified `TXXX:...` compound) is preserved.  The replacement text frame is
added under the first four bytes of the key (so a `TXXX:...` row adds a
`TXXX`-ID frame next to the preserved ones).  The `:`-split happens only in
the `CLEAR` keep-set computation. -/
theorem C3_full_key_removal (fs : List Frame) (key value : Str) (f : Frame)
    (more : List Str) (hkey : TAB ∉ key) (hf : f ∈ fs) (hne : f.frameID ≠ key) :
    applyFrameRow fs (mkRow key value) =
      (if value = [] then removeFrames fs key
       else if startsWithT key then
         removeFrames fs key ++ [Frame.textId (key.take 4) (splitChar VT value)]
       else if key = COMMid then removeFrames fs key ++ [Frame.comm [] value]
       else removeFrames fs key) ∧
    f ∈ removeFrames fs key ∧
    f ∈ applyFrameRow fs (mkRow key value) ∧
    keepIDs (mkRow key value :: more) = stripQual key :: keepIDs more := by
  have hunfold : applyFrameRow fs (mkRow key value) =
      (if value = [] then removeFrames fs key
       else if startsWithT key then
         removeFrames fs key ++ [Frame.textId (key.take 4) (splitChar VT value)]
       else if key = COMMid then removeFrames fs key ++ [Frame.comm [] value]
       else removeFrames fs key) := by
    simp [applyFrameRow, splitFirst_mkRow value hkey]
  have hmem : f ∈ removeFrames fs key :=
    List.mem_filter.mpr ⟨hf, bne_iff_ne.mpr hne⟩
  refine ⟨hunfold, hmem, ?_, ?_⟩
  · rw [hunfold]
    split_ifs <;> first | exact hmem | exact List.mem_append_left _ hmem
  · simp [keepIDs, List.filterMap_cons, splitFirst_mkRow value hkey]

/-- Witness for C3 (amended) at the counterexample configuration. -/
theorem C3_full_key_removal_witness :
    applyFrameRow [.userText [['o'], ['v']]] (mkRow (TXXXid ++ COLON :: ['d']) ['w']) =
      (if (['w'] : Str) = [] then
         removeFrames [.userText [['o'], ['v']]] (TXXXid ++ COLON :: ['d'])
       else if startsWithT (TXXXid ++ COLON :: ['d']) then
         removeFrames [.userText [['o'], ['v']]] (TXXXid ++ COLON :: ['d']) ++
           [Frame.textId ((TXXXid ++ COLON :: ['d']).take 4) (splitChar VT ['w'])]
       else if (TXXXid ++ COLON :: ['d']) = COMMid then
         removeFrames [.userText [['o'], ['v']]] (TXXXid ++ COLON :: ['d']) ++
           [Frame.comm [] ['w']]
       else removeFrames [.userText [['o'], ['v']]] (TXXXid ++ COLON :: ['d'])) ∧
    Frame.userText [['o'], ['v']] ∈
      removeFrames [.userText [['o'], ['v']]] (TXXXid ++ COLON :: ['d']) ∧
    Frame.userText [['o'], ['v']] ∈
      applyFrameRow [.userText [['o'], ['v']]] (mkRow (TXXXid ++ COLON :: ['d']) ['w']) ∧
    keepIDs (mkRow (TXXXid ++ COLON :: ['d']) ['w'] :: []) =
      stripQual (TXXXid ++ COLON :: ['d']) :: keepIDs [] :=
  C3_full_key_removal [.userText [['o'], ['v']]] (TXXXid ++ COLON :: ['d']) ['w']
    (.userText [['o'], ['v']]) [] (by decide) (by decide) (by decide)

/-- Claim C4: `taglib_file_id3v2_frames` returns the sentinel-only empty
sequence (not the null result) for an openable non-MPEG file, for an MPEG
file without an ID3v2 tag, and for an MPEG file whose tag holds zero frames;
the null result occurs exactly when the file could not be opened. -/
theorem C4_absence_vs_empty :
    (∀ i, taglib_file_id3v2_frames i = none ↔ i = Id3v2Input.openFail) ∧
    taglib_file_id3v2_frames .nonMpeg = some [] ∧
    taglib_file_id3v2_frames .mpegNoTag = some [] ∧
    taglib_file_id3v2_frames (.mpegTag []) = some [] := by
  refine ⟨fun i => ?_, rfl, rfl, by simp [taglib_file_id3v2_frames]⟩
  cases i with
  | openFail => simp [taglib_file_id3v2_frames]
  | nonMpeg => simp [taglib_file_id3v2_frames]
  | mpegNoTag => simp [taglib_file_id3v2_frames]
  | mpegTag fs =>
      constructor
      · intro h
        by_cases hfs : fs.isEmpty <;> simp [taglib_file_id3v2_frames, hfs] at h
      · intro h
        exact Id3v2Input.noConfusion h

/-- Claim C6, counterexample to the claim as stated: with `CLEAR` set and a
batch mentioning only `TIT2`, a frame whose ID `TALB` is NOT mentioned in the
batch is REMOVED by the clear step (and absent from the saved tag) — not
preserved: the clear step keeps exactly the mentioned IDs. -/
theorem C6_counterexample :
    keepIDs [mkRow ['T', 'I', 'T', '2'] ['y']] = [['T', 'I', 'T', '2']] ∧
    clearStep (keepIDs [mkRow ['T', 'I', 'T', '2'] ['y']])
      [.other ['T', 'A', 'L', 'B'] ['x']] = [] ∧
    Frame.other ['T', 'A', 'L', 'B'] ['x'] ∉
      ((taglib_file_write_id3v2_frames (.valid [.other ['T', 'A', 'L', 'B'] ['x']] true)
          [mkRow ['T', 'I', 'T', '2'] ['y']] CLEAR).2.getD []) := by decide

/-- Claim C6 (amended): with `CLEAR` set, the clear step of
`taglib_file_write_id3v2_frames` keeps exactly the frame instances whose
frame ID is mentioned in the batch (keys stripped at `:`); every instance
whose ID is not mentioned at all is removed by the clear step, and the row
directives are then applied to that cleared frame list. -/
theorem C6_clear_scope (fs : List Frame) (rows : List Str) (f : Frame) (saveOk : Bool)
    (hf : f ∈ fs) :
    (f ∈ clearStep (keepIDs rows) fs ↔ f.frameID ∈ keepIDs rows) ∧
    taglib_file_write_id3v2_frames (.valid fs saveOk) rows CLEAR =
      (saveOk, some (rows.foldl applyFrameRow (clearStep (keepIDs rows) fs))) := by
  constructor
  · constructor
    · intro h
      exact of_decide_eq_true (List.mem_filter.mp h).2
    · intro h
      exact List.mem_filter.mpr ⟨hf, decide_eq_true h⟩
  · simp [taglib_file_write_id3v2_frames, CLEAR]

/-- Witness for C6 (amended) at the counterexample configuration. -/
theorem C6_clear_scope_witness :
    (Frame.other ['T', 'A', 'L', 'B'] ['x'] ∈
        clearStep (keepIDs [mkRow ['T', 'I', 'T', '2'] ['y']])
          [.other ['T', 'A', 'L', 'B'] ['x']] ↔
      Frame.frameID (.other ['T', 'A', 'L', 'B'] ['x']) ∈
        keepIDs [mkRow ['T', 'I', 'T', '2'] ['y']]) ∧
    taglib_file_write_id3v2_frames (.valid [.other ['T', 'A', 'L', 'B'] ['x']] true)
        [mkRow ['T', 'I', 'T', '2'] ['y']] CLEAR =
      (true, some ([mkRow ['T', 'I', 'T', '2'] ['y']].foldl applyFrameRow
        (clearStep (keepIDs [mkRow ['T', 'I', 'T', '2'] ['y']])
          [.other ['T', 'A', 'L', 'B'] ['x']]))) :=
  C6_clear_scope [.other ['T', 'A', 'L', 'B'] ['x']] [mkRow ['T', 'I', 'T', '2'] ['y']]
    (.other ['T', 'A', 'L', 'B'] ['x']) true (by decide)

/-- Claim C7: for every user-text (TXXX) frame instance the read-direction
flattener emits the key `TXXX:` followed by `description()` — the FIRST
element of the frame's raw internal field list, empty when the list is
empty — and, as the value, `fieldList().back()`, the LAST element of that
same list (not the first), emitting the empty value exactly when the field
list is empty; `taglib_file_id3v2_frames` emits exactly that row for the
frame.  For a frame whose list is `description :: rest` the value is the
list's last element, which for `rest = []` is the description itself. -/
theorem C7_txxx_last_field (fields : List Str) (d : Str) :
    flattenFrame (.userText fields) =
      (TXXXid ++ COLON :: fields.headD [],
       if fields.isEmpty then [] else fields.getLastD []) ∧
    frameRow (.userText fields) =
      mkRow (TXXXid ++ COLON :: fields.headD [])
        (if fields.isEmpty then [] else fields.getLastD []) ∧
    flattenFrame (.userText []) = (TXXXid ++ [COLON], []) ∧
    flattenFrame (.userText (d :: fields)) =
      (TXXXid ++ COLON :: d, (d :: fields).getLastD []) ∧
    taglib_file_id3v2_frames (.mpegTag [.userText fields]) =
      some [frameRow (.userText fields)] := by
  have h : flattenFrame (.userText fields) =
      (TXXXid ++ COLON :: fields.headD [],
       if fields.isEmpty then [] else fields.getLastD []) := by
    simp [flattenFrame, Frame.frameID]
  refine ⟨h, ?_, by simp [flattenFrame, Frame.frameID], ?_, ?_⟩
  · rw [frameRow, h]
  · simp [flattenFrame, Frame.frameID]
  · simp [taglib_file_id3v2_frames]

/-- Claim C8 (modelled from the spec; the image channel is not under `src/`):
a `writeImage` call with zero length removes every image record regardless of
the index argument, so a subsequent `readImage` signals absence at index 0 —
and indeed at every index. -/
theorem C8_zero_length_clears_all (imgs : List ImageRecord) (buf : List Nat)
    (index j : Nat) (pt desc mime : Str) :
    writeImage imgs buf 0 index pt desc mime = [] ∧
    readImage (writeImage imgs buf 0 index pt desc mime) 0 = none ∧
    readImage (writeImage imgs buf 0 index pt desc mime) j = none := by
  refine ⟨rfl, rfl, ?_⟩
  simp [writeImage, readImage]

/-- Claim C9: a row without a TAB is silently skipped by both write
operations — it changes no store or frame list, and dropping it from a batch
leaves the entire result of either operation (success flag and persisted
state) unchanged. -/
theorem C9_tabless_row_skipped (r : Str) (s : Store) (fs : List Frame)
    (f : FileInput) (mf : MpegInput) (l₁ l₂ : List Str) (opts : Nat)
    (hr : TAB ∉ r) :
    applyRow s r = s ∧
    applyFrameRow fs r = fs ∧
    taglib_file_write_tags f (l₁ ++ r :: l₂) opts =
      taglib_file_write_tags f (l₁ ++ l₂) opts ∧
    taglib_file_write_id3v2_frames mf (l₁ ++ r :: l₂) opts =
      taglib_file_write_id3v2_frames mf (l₁ ++ l₂) opts := by
  refine ⟨applyRow_of_no_tab hr s, applyFrameRow_of_no_tab hr fs, ?_, ?_⟩
  · cases f with
    | openFail => rfl
    | valid store saveOk =>
        simp [taglib_file_write_tags, appliedStore, applyRows_middle _ hr]
  · cases mf with
    | invalid => rfl
    | valid fsv saveOk =>
        simp [taglib_file_write_id3v2_frames, keepIDs_middle hr, foldlFrames_middle _ hr]

/-- Witness for C9: the tab-free row `"Z"` in the middle of a one-row batch. -/
theorem C9_tabless_row_skipped_witness :
    applyRow [([ 'A' ], [['x']])] ['Z'] = [([ 'A' ], [['x']])] ∧
    applyFrameRow [.other ['T', 'A', 'L', 'B'] ['x']] ['Z'] =
      [.other ['T', 'A', 'L', 'B'] ['x']] ∧
    taglib_file_write_tags (.valid [([ 'A' ], [['x']])] true)
        ([mkRow ['A'] ['y']] ++ ['Z'] :: []) 0 =
      taglib_file_write_tags (.valid [([ 'A' ], [['x']])] true)
        ([mkRow ['A'] ['y']] ++ []) 0 ∧
    taglib_file_write_id3v2_frames (.valid [.other ['T', 'A', 'L', 'B'] ['x']] true)
        ([mkRow ['A'] ['y']] ++ ['Z'] :: []) 0 =
      taglib_file_write_id3v2_frames (.valid [.other ['T', 'A', 'L', 'B'] ['x']] true)
        ([mkRow ['A'] ['y']] ++ []) 0 :=
  C9_tabless_row_skipped ['Z'] [([ 'A' ], [['x']])] [.other ['T', 'A', 'L', 'B'] ['x']]
    (.valid [([ 'A' ], [['x']])] true) (.valid [.other ['T', 'A', 'L', 'B'] ['x']] true)
    [mkRow ['A'] ['y']] [] 0 (by decide)

theorem sublist_cons_append {α : Type} {a : α} {l m r : List α}
    (h1 : l.Sublist [a]) (h2 : m.Sublist r) : (l ++ m).Sublist (a :: r) := by
  simpa using List.Sublist.append h1 h2

/-- Claim C10: `taglib_file_id3v1_tags` yields the null result exactly on
open failure and the sentinel-only empty sequence for a non-MPEG file or a
missing ID3v1 tag; for a file with a tag it yields at most 7 rows, a sublist
of the fixed order TITLE, ARTIST, ALBUM, YEAR, COMMENT, TRACK, GENRE, where
each key is present exactly when its field is non-empty (respectively
positive for the numeric YEAR/TRACK, and for GENRE when the genre number is
not 255 and the genre string non-empty). -/
theorem C10_id3v1_fields :
    (∀ i, taglib_file_id3v1_tags i = none ↔ i = Id3v1Input.openFail) ∧
    taglib_file_id3v1_tags .nonMpeg = some [] ∧
    taglib_file_id3v1_tags .mpegNoV1 = some [] ∧
    (∀ t, taglib_file_id3v1_tags (.mpegV1 t) = some (id3v1Rows t)) ∧
    (∀ t, (id3v1Rows t).length ≤ 7) ∧
    (∀ t, (id3v1Rows t).Sublist
      [mkRow TITLEkey t.title, mkRow ARTISTkey t.artist, mkRow ALBUMkey t.album,
       mkRow YEARkey (natToStr t.year), mkRow COMMENTkey t.comment,
       mkRow TRACKkey (natToStr t.track), mkRow GENREkey t.genre]) ∧
    (∀ t, hasKey (id3v1Rows t) TITLEkey = !t.title.isEmpty ∧
      hasKey (id3v1Rows t) ARTISTkey = !t.artist.isEmpty ∧
      hasKey (id3v1Rows t) ALBUMkey = !t.album.isEmpty ∧
      hasKey (id3v1Rows t) YEARkey = decide (t.year > 0) ∧
      hasKey (id3v1Rows t) COMMENTkey = !t.comment.isEmpty ∧
      hasKey (id3v1Rows t) TRACKkey = decide (t.track > 0) ∧
      hasKey (id3v1Rows t) GENREkey =
        (decide (t.genreNumber ≠ 255) && !t.genre.isEmpty)) := by
  refine ⟨fun i => ?_, rfl, rfl, fun t => rfl, fun t => ?_, fun t => ?_, fun t => ?_⟩
  · cases i with
    | openFail => simp [taglib_file_id3v1_tags]
    | nonMpeg => simp [taglib_file_id3v1_tags]
    | mpegNoV1 => simp [taglib_file_id3v1_tags]
    | mpegV1 t =>
        constructor
        · intro h
          simp [taglib_file_id3v1_tags] at h
        · intro h
          exact Id3v1Input.noConfusion h
  · have l1 : (if t.title.isEmpty then ([] : List Str)
        else [mkRow TITLEkey t.title]).length ≤ 1 := length_ite_le (by simp) (by simp)
    have l2 : (if t.artist.isEmpty then ([] : List Str)
        else [mkRow ARTISTkey t.artist]).length ≤ 1 := length_ite_le (by simp) (by simp)
    have l3 : (if t.album.isEmpty then ([] : List Str)
        else [mkRow ALBUMkey t.album]).length ≤ 1 := length_ite_le (by simp) (by simp)
    have l4 : (if t.year > 0 then [mkRow YEARkey (natToStr t.year)]
        else ([] : List Str)).length ≤ 1 := length_ite_le (by simp) (by simp)
    have l5 : (if t.comment.isEmpty then ([] : List Str)
        else [mkRow COMMENTkey t.comment]).length ≤ 1 := length_ite_le (by simp) (by simp)
    have l6 : (if t.track > 0 then [mkRow TRACKkey (natToStr t.track)]
        else ([] : List Str)).length ≤ 1 := length_ite_le (by simp) (by simp)
    have l7 : (if t.genreNumber ≠ 255 then
        (if t.genre.isEmpty then ([] : List Str) else [mkRow GENREkey t.genre])
        else ([] : List Str)).length ≤ 1 :=
      length_ite_le (length_ite_le (by simp) (by simp)) (by simp)
    simp only [id3v1Rows, List.length_append]
    omega
  · simp only [id3v1Rows, List.append_assoc]
    exact sublist_cons_append (ite_sublist (List.nil_sublist _) (List.Sublist.refl _))
      (sublist_cons_append (ite_sublist (List.nil_sublist _) (List.Sublist.refl _))
        (sublist_cons_append (ite_sublist (List.nil_sublist _) (List.Sublist.refl _))
          (sublist_cons_append (ite_sublist (List.Sublist.refl _) (List.nil_sublist _))
            (sublist_cons_append (ite_sublist (List.nil_sublist _) (List.Sublist.refl _))
              (sublist_cons_append (ite_sublist (List.Sublist.refl _) (List.nil_sublist _))
                (ite_sublist
                  (ite_sublist (List.nil_sublist _) (List.Sublist.refl _))
                  (List.nil_sublist _)))))))
  · refine ⟨?_, ?_, ?_, ?_, ?_, ?_, ?_⟩ <;> rw [hasKey_id3v1Rows] <;> simp +decide
